import Mathlib

/-!
Verification development for the CRM query processor
(`crmqueryprocessor.py`, class `CRMQueryProcessor`).

Strings are modelled as `List Char`.  Python `\s` / `str.strip()` /
`str.lower()` are modelled over the ASCII whitespace and letter ranges,
which covers every string the program manipulates.
-/

namespace CRM

/-- The backtick character (0x60), written via its code point. -/
def tick : Char := Char.ofNat 96

/-- Python regex `\s` on the ASCII range: space, tab, newline, carriage
return, vertical tab, form feed. -/
def isWS (c : Char) : Bool :=
  c = ' ' || c = '\t' || c = '\n' || c = '\x0d' || c = '\x0b' || c = '\x0c'

/-- The opening code-fence marker `\x60\x60\x60sql` matched by the first
`re.sub` pattern in `clean_sql`. -/
def fenceSql : List Char := [tick, tick, tick, 's', 'q', 'l']

/-- Three backticks, the closing fence matched by `re.sub(r'\x60\x60\x60\s*$', ...)`. -/
def ticks3 : List Char := [tick, tick, tick]

/-- Fuel-indexed worker for `re.sub(r'\x60\x60\x60sql\s*', '', sql)`:
scan left to right; at a position where `\x60\x60\x60sql` matches, delete it
together with the (greedy) run of whitespace after it and continue scanning
after the match, exactly as `re.sub` replaces leftmost non-overlapping
matches.  The fuel only makes the recursion structural; with
`fuel = length` it never runs out (each step consumes at least one
character). -/
def subFenceSqlFuel : Nat → List Char → List Char
  | 0, l => l
  | _ + 1, [] => []
  | fuel + 1, c :: cs =>
    if fenceSql.isPrefixOf (c :: cs) then
      subFenceSqlFuel fuel (List.dropWhile isWS (List.drop 6 (c :: cs)))
    else
      c :: subFenceSqlFuel fuel cs

/-- Embedding of `re.sub(r'\x60\x60\x60sql\s*', '', sql)` (first line of
`CRMQueryProcessor.clean_sql`). -/
def subFenceSql (l : List Char) : List Char := subFenceSqlFuel l.length l

/-- Whether every character of the list is whitespace. -/
def allWS (l : List Char) : Bool := l.all isWS

/-- Embedding of `re.sub(r'\x60\x60\x60\s*$', '', sql)` (second line of
`CRMQueryProcessor.clean_sql`).  Without `re.MULTILINE`, the pattern
matches at position `i` exactly when three backticks stand at `i` and
everything after them is whitespace (the greedy `\s*` runs to the end of
the string, where `$` matches); the match then extends to the end of the
string, so `re.sub` performs at most one replacement, at the leftmost
such position. -/
def subFenceEnd : List Char → List Char
  | [] => []
  | c :: cs =>
    if ticks3.isPrefixOf (c :: cs) && allWS (List.drop 3 (c :: cs)) then []
    else c :: subFenceEnd cs

/-- Embedding of Python `str.strip()` over ASCII whitespace. -/
def pyStrip (l : List Char) : List Char :=
  ((l.dropWhile isWS).reverse.dropWhile isWS).reverse

/-- Embedding of `CRMQueryProcessor.clean_sql`: strip `\x60\x60\x60sql`
fences, strip a trailing `\x60\x60\x60` fence, then trim whitespace. -/
def clean_sql (sql : List Char) : List Char :=
  pyStrip (subFenceEnd (subFenceSql sql))

/-- Embedding of Python `str.lower()` on the ASCII range. -/
def pyLower (l : List Char) : List Char :=
  l.map fun c => if 65 ≤ c.toNat && c.toNat ≤ 90 then Char.ofNat (c.toNat + 32) else c

/-! Basic facts about the fuel-indexed sanitizer worker. -/

theorem subFenceSqlFuel_nil (f : Nat) : subFenceSqlFuel f [] = [] := by
  cases f <;> rfl

theorem length_le_of_isPrefixOf {l₁ l₂ : List Char} (h : l₁.isPrefixOf l₂ = true) :
    l₁.length ≤ l₂.length :=
  ( List.isPrefixOf_iff_prefix.mp h).length_le

theorem dropWhile_length_le (p : Char → Bool) (l : List Char) :
    (l.dropWhile p).length ≤ l.length :=
  (List.dropWhile_suffix p).length_le

/-- The fuel is irrelevant as long as it dominates the length of the input:
any sufficiently fuelled run agrees with the canonical `subFenceSql`. -/
theorem subFenceSqlFuel_eq (f : Nat) :
    ∀ x : List Char, x.length ≤ f → subFenceSqlFuel f x = subFenceSql x := by
  induction f using Nat.strong_induction_on with
  | _ f IH =>
    intro x hx
    match f, x with
    | f, [] => rw [subFenceSqlFuel_nil, subFenceSql, List.length_nil, subFenceSqlFuel_nil]
    | 0, c :: cs => simp at hx
    | f + 1, c :: cs =>
      by_cases hp : fenceSql.isPrefixOf (c :: cs) = true
      · have hlen6 : 6 ≤ (c :: cs).length := length_le_of_isPrefixOf hp
        have hd : (List.dropWhile isWS (List.drop 6 (c :: cs))).length ≤ cs.length := by
          calc (List.dropWhile isWS (List.drop 6 (c :: cs))).length
              ≤ (List.drop 6 (c :: cs)).length := dropWhile_length_le _ _
            _ = (c :: cs).length - 6 := by rw [List.length_drop]
            _ ≤ cs.length := by simp only [List.length_cons]; omega
        have hcs : cs.length ≤ f := by
          simpa [List.length_cons, Nat.succ_le_succ_iff] using hx
        have h1 : subFenceSqlFuel (f + 1) (c :: cs)
            = subFenceSqlFuel f (List.dropWhile isWS (List.drop 6 (c :: cs))) := by
          simp [subFenceSqlFuel, hp]
        have h2 : subFenceSql (c :: cs)
            = subFenceSqlFuel cs.length (List.dropWhile isWS (List.drop 6 (c :: cs))) := by
          simp [subFenceSql, subFenceSqlFuel, hp]
        rw [h1, h2, IH f (Nat.lt_succ_self f) _ (le_trans hd hcs),
          IH cs.length (Nat.lt_succ_of_le hcs) _ hd]
      · have hcs : cs.length ≤ f := by
          simpa [List.length_cons, Nat.succ_le_succ_iff] using hx
        have h1 : subFenceSqlFuel (f + 1) (c :: cs) = c :: subFenceSqlFuel f cs := by
          simp [subFenceSqlFuel, hp]
        have h2 : subFenceSql (c :: cs) = c :: subFenceSqlFuel cs.length cs := by
          simp [subFenceSql, subFenceSqlFuel, hp]
        rw [h1, h2, IH f (Nat.lt_succ_self f) _ hcs,
          IH cs.length (Nat.lt_succ_of_le hcs) _ le_rfl]

/-- Unfolding `subFenceSql` at a non-matching head character. -/
theorem subFenceSql_cons_neg {c : Char} {cs : List Char}
    (h : fenceSql.isPrefixOf (c :: cs) = false) :
    subFenceSql (c :: cs) = c :: subFenceSql cs := by
  have : subFenceSql (c :: cs) = c :: subFenceSqlFuel cs.length cs := by
    simp [subFenceSql, subFenceSqlFuel, h]
  rw [this, subFenceSqlFuel_eq cs.length cs le_rfl]

/-- Single-step unfolding of the worker on a cons cell. -/
theorem subFenceSqlFuel_cons (f : Nat) (c : Char) (cs : List Char) :
    subFenceSqlFuel (f + 1) (c :: cs) =
      if fenceSql.isPrefixOf (c :: cs) then
        subFenceSqlFuel f (List.dropWhile isWS (List.drop 6 (c :: cs)))
      else c :: subFenceSqlFuel f cs := rfl

/-- Matching step of the worker, stated for an arbitrary nonempty list. -/
theorem subFenceSqlFuel_succ_pos (f : Nat) (x : List Char) (c : Char) (cs : List Char)
    (hx : x = c :: cs) (h : fenceSql.isPrefixOf x = true) :
    subFenceSqlFuel (f + 1) x = subFenceSqlFuel f (List.dropWhile isWS (List.drop 6 x)) := by
  subst hx; rw [subFenceSqlFuel_cons, if_pos h]

/-- Unfolding `subFenceSql` at a match: the fence and the whitespace run
after it are deleted and scanning resumes after them. -/
theorem subFenceSql_fence_head (b : List Char) :
    subFenceSql (fenceSql ++ b) = subFenceSql (List.dropWhile isWS b) := by
  have hp : fenceSql.isPrefixOf (fenceSql ++ b) = true := by
    simp [ List.isPrefixOf_iff_prefix]
  have hdrop : List.drop 6 (fenceSql ++ b) = b := by
    have h6 : (6 : Nat) = fenceSql.length := by simp [fenceSql]
    rw [h6, List.drop_left]
  have hlen : (fenceSql ++ b).length = (b.length + 5) + 1 := by
    simp [fenceSql, List.length_append]
  have h1 : subFenceSql (fenceSql ++ b)
      = subFenceSqlFuel (b.length + 5) (List.dropWhile isWS b) := by
    rw [subFenceSql, hlen,
      subFenceSqlFuel_succ_pos (b.length + 5) (fenceSql ++ b)
        tick (tick :: tick :: 's' :: 'q' :: 'l' :: b) rfl hp, hdrop]
  rw [h1, subFenceSqlFuel_eq _ _
    (le_trans (dropWhile_length_le isWS b) (by omega))]

/-- A character other than a backtick can never start a `\x60\x60\x60sql` match. -/
theorem fenceSql_isPrefixOf_cons_false {c : Char} (y : List Char) (hc : c ≠ tick) :
    fenceSql.isPrefixOf (c :: y) = false := by
  have hbeq : (tick == c) = false := by
    simp only [beq_eq_false_iff_ne, ne_eq]
    exact fun h => hc h.symm
  simp [fenceSql, List.isPrefixOf, hbeq]

/-- A character other than a backtick can never start a `\x60\x60\x60` match. -/
theorem ticks3_isPrefixOf_cons_false {c : Char} (y : List Char) (hc : c ≠ tick) :
    ticks3.isPrefixOf (c :: y) = false := by
  have hbeq : (tick == c) = false := by
    simp only [beq_eq_false_iff_ne, ne_eq]
    exact fun h => hc h.symm
  simp [ticks3, List.isPrefixOf, hbeq]

/-- Single-step unfolding of `subFenceEnd` on a cons cell. -/
theorem subFenceEnd_cons (c : Char) (cs : List Char) :
    subFenceEnd (c :: cs) =
      if ticks3.isPrefixOf (c :: cs) && allWS (List.drop 3 (c :: cs)) then []
      else c :: subFenceEnd cs := rfl

/-- On a string holding no `\x60\x60\x60`, the first `re.sub` is the identity. -/
theorem subFenceSql_no_fence : ∀ x : List Char, ¬ ticks3 <:+: x → subFenceSql x = x := by
  intro x
  induction x with
  | nil => intro _; rfl
  | cons c cs ih =>
    intro h
    have hcond : fenceSql.isPrefixOf (c :: cs) = false := by
      by_contra hne
      have hp : fenceSql.isPrefixOf (c :: cs) = true := by
        cases hfs : fenceSql.isPrefixOf (c :: cs) with
        | true => rfl
        | false => exact absurd hfs hne
      have h3 : ticks3 <+: fenceSql := ⟨['s', 'q', 'l'], rfl⟩
      exact h ((h3.trans ( List.isPrefixOf_iff_prefix.mp hp)).isInfix)
    rw [subFenceSql_cons_neg hcond]
    rw [ih fun hin => h ( List.infix_cons hin)]

/-- On a string holding no `\x60\x60\x60`, the second `re.sub` is the identity. -/
theorem subFenceEnd_no_fence : ∀ x : List Char, ¬ ticks3 <:+: x → subFenceEnd x = x := by
  intro x
  induction x with
  | nil => intro _; rfl
  | cons c cs ih =>
    intro h
    have hcond : ticks3.isPrefixOf (c :: cs) = false := by
      by_contra hne
      have hp : ticks3.isPrefixOf (c :: cs) = true := by
        cases hfs : ticks3.isPrefixOf (c :: cs) with
        | true => rfl
        | false => exact absurd hfs hne
      exact h ( List.isPrefixOf_iff_prefix.mp hp).isInfix
    rw [subFenceEnd_cons, hcond]
    rw [ih fun hin => h ( List.infix_cons hin)]
    simp

/-! Facts about `pyStrip` (Python `str.strip()`). -/

theorem dropWhile_dropWhile (p : Char → Bool) (l : List Char) :
    List.dropWhile p (List.dropWhile p l) = List.dropWhile p l := by
  induction l with
  | nil => rfl
  | cons c cs ih =>
    by_cases hc : p c = true
    · simpa [List.dropWhile_cons, hc] using ih
    · simp [List.dropWhile_cons, hc]

/-- The right-trim phase of `pyStrip` yields a prefix of its input. -/
theorem stripRightPre (l : List Char) :
    ((l.reverse.dropWhile isWS).reverse : List Char) <+: l := by
  have h := List.dropWhile_suffix (l := l.reverse) isWS
  have := List.reverse_prefix.mpr h
  rwa [List.reverse_reverse] at this

/-- `pyStrip l` is a contiguous piece of `l`. -/
theorem pyStrip_piece (l : List Char) : pyStrip l <:+: l := by
  have h1 : pyStrip l <+: l.dropWhile isWS := stripRightPre (l.dropWhile isWS)
  exact h1.isInfix.trans (List.dropWhile_suffix isWS).isInfix

/-- If a list has no leading whitespace, right-trimming it leaves no
leading whitespace either. -/
theorem dropWhile_stripRight (l : List Char) (h : l.dropWhile isWS = l) :
    ((l.reverse.dropWhile isWS).reverse : List Char).dropWhile isWS
      = (l.reverse.dropWhile isWS).reverse := by
  cases hr : ((l.reverse.dropWhile isWS).reverse : List Char) with
  | nil => rfl
  | cons c t =>
    have hpre : c :: t <+: l := by rw [← hr]; exact stripRightPre l
    obtain ⟨u, hu⟩ := hpre
    have hcl : l = c :: (t ++ u) := by rw [← hu]; rfl
    have hcw : isWS c = false := by
      by_contra hcw
      have hcw' : isWS c = true := by
        cases hx : isWS c with
        | true => rfl
        | false => exact absurd hx hcw
      rw [hcl, List.dropWhile_cons_of_pos hcw'] at h
      have hlen := congrArg List.length h
      have hle := dropWhile_length_le isWS (t ++ u)
      simp only [List.length_cons] at hlen
      omega
    rw [List.dropWhile_cons_of_neg (by simp [hcw])]

/-- Whitespace characters are never backticks. -/
theorem ws_ne_tick {c : Char} (h : isWS c = true) : c ≠ tick := by
  intro hc
  rw [hc] at h
  exact absurd h (by decide)

/-- A list containing a backtick is not all whitespace. -/
theorem allWS_false_of_tick_mem {x : List Char} (h : tick ∈ x) : allWS x = false := by
  cases hX : allWS x with
  | false => rfl
  | true => exact absurd (List.all_eq_true.mp hX tick h) (by decide)

/-- The first `re.sub` walks untouched over a backtick-free segment. -/
theorem subFenceSql_append_no_tick (a : List Char) (l : List Char)
    (h : ∀ c ∈ a, c ≠ tick) :
    subFenceSql (a ++ l) = a ++ subFenceSql l := by
  induction a with
  | nil => simp
  | cons c a' ih =>
    have hcond : fenceSql.isPrefixOf (c :: (a' ++ l)) = false :=
      fenceSql_isPrefixOf_cons_false _ (h c (by simp))
    rw [List.cons_append, subFenceSql_cons_neg hcond,
      ih fun x hx => h x (by simp [hx]), List.cons_append]

/-- The second `re.sub` deletes a trailing fence together with the
whitespace after it, leaving a backtick-free stem untouched. -/
theorem subFenceEnd_trailing (l w : List Char) (h : ∀ c ∈ l, c ≠ tick)
    (hw : allWS w = true) : subFenceEnd (l ++ (ticks3 ++ w)) = l := by
  induction l with
  | nil =>
    show subFenceEnd (tick :: tick :: tick :: w) = []
    rw [subFenceEnd_cons]
    have hp : ticks3.isPrefixOf (tick :: tick :: tick :: w) = true := by
      simp [ticks3, List.isPrefixOf]
    have hd : List.drop 3 (tick :: tick :: tick :: w) = w := rfl
    rw [hp, hd, hw]
    rfl
  | cons c l' ih =>
    have hcond : ticks3.isPrefixOf (c :: (l' ++ (ticks3 ++ w))) = false :=
      ticks3_isPrefixOf_cons_false _ (h c (by simp))
    rw [List.cons_append, subFenceEnd_cons, hcond,
      ih fun x hx => h x (by simp [hx])]
    simp

/-- Variant of `subFenceEnd_trailing` for an all-whitespace stem. -/
theorem subFenceEnd_ws_before (v w : List Char) (hv : allWS v = true)
    (hw : allWS w = true) : subFenceEnd (v ++ (ticks3 ++ w)) = v :=
  subFenceEnd_trailing v w
    (fun c hc => ws_ne_tick (List.all_eq_true.mp hv c hc)) hw

/-- With two trailing fences separated by whitespace, only the final one is
deleted: the match at the earlier fence fails because its suffix is not all
whitespace. -/
theorem subFenceEnd_two_fences (l v w : List Char) (h : ∀ c ∈ l, c ≠ tick)
    (hv : allWS v = true) (hvne : v ≠ []) (hw : allWS w = true) :
    subFenceEnd (l ++ (ticks3 ++ (v ++ (ticks3 ++ w)))) = l ++ (ticks3 ++ v) := by
  induction l with
  | cons c l' ih =>
    have hcond : ticks3.isPrefixOf (c :: (l' ++ (ticks3 ++ (v ++ (ticks3 ++ w))))) = false :=
      ticks3_isPrefixOf_cons_false _ (h c (by simp))
    rw [List.cons_append, subFenceEnd_cons, hcond,
      ih fun x hx => h x (by simp [hx])]
    simp
  | nil =>
    obtain ⟨vc, v', rfl⟩ : ∃ vc v', v = vc :: v' := by
      cases v with
      | nil => exact absurd rfl hvne
      | cons a b => exact ⟨a, b, rfl⟩
    have hvc : isWS vc = true := by
      have := List.all_eq_true.mp hv vc (by simp)
      simpa using this
    have hbeq : (tick == vc) = false := by
      simp only [beq_eq_false_iff_ne, ne_eq]
      exact fun hcontra => (ws_ne_tick hvc) hcontra.symm
    show subFenceEnd (tick :: tick :: tick :: ((vc :: v') ++ (ticks3 ++ w)))
        = tick :: tick :: tick :: (vc :: v')
    have hmem : tick ∈ (vc :: v') ++ (ticks3 ++ w) := by
      simp [ticks3]
    have hnw : allWS (List.drop 3 (tick :: tick :: tick :: ((vc :: v') ++ (ticks3 ++ w))))
        = false := allWS_false_of_tick_mem hmem
    rw [subFenceEnd_cons, hnw, Bool.and_false]
    have h2 : ticks3.isPrefixOf (tick :: tick :: ((vc :: v') ++ (ticks3 ++ w))) = false := by
      simp [ticks3, List.isPrefixOf, hbeq]
    rw [subFenceEnd_cons, h2, Bool.false_and]
    have h3 : ticks3.isPrefixOf (tick :: ((vc :: v') ++ (ticks3 ++ w))) = false := by
      simp [ticks3, List.isPrefixOf, hbeq]
    rw [subFenceEnd_cons, h3, Bool.false_and]
    rw [subFenceEnd_ws_before (vc :: v') w hv hw]
    simp

/-- Python `str.strip()` is idempotent. -/
theorem pyStrip_idem (l : List Char) : pyStrip (pyStrip l) = pyStrip l := by
  have hL : (l.dropWhile isWS).dropWhile isWS = l.dropWhile isWS :=
    dropWhile_dropWhile isWS l
  have hmid : (pyStrip l).dropWhile isWS = pyStrip l :=
    dropWhile_stripRight (l.dropWhile isWS) hL
  show ((((pyStrip l).dropWhile isWS).reverse.dropWhile isWS).reverse : List Char) = pyStrip l
  rw [hmid]
  show (((((l.dropWhile isWS).reverse.dropWhile isWS).reverse : List Char)).reverse.dropWhile
    isWS).reverse = pyStrip l
  rw [List.reverse_reverse, dropWhile_dropWhile]
  rfl

/-- `self.MAX_RETRIES = 3` from `CRMQueryProcessor.__init__`. -/
def MAX_RETRIES : Nat := 3

/-- `self.RETRY_DELAY = 1` from `CRMQueryProcessor.__init__`. -/
def RETRY_DELAY : Nat := 1

/-- Decimal rendering of an integer, as Python f-string interpolation does. -/
def natStr (n : Nat) : List Char := (Nat.repr n).data

/-- `self.schema`: the triple-quoted schema description, byte for byte
(every line of the source literal is indented by eight spaces, and the
apparently blank lines hold eight spaces as well). -/
def schemaText : List Char :=
  ("\n        Tables and their relationships:\n        \n        ordertab (order_id, client_id, customer_id, lead_id, status, type, created, updated, deleted)\n        - Links to customer through customer_id\n        - Links to lead through lead_id\n        \n        customer (customer_id, client_id, name, email, phone, income_group, marital_status, source)\n        - Referenced by ordertab\n        \n        lead (lead_id, client_id, user_id, name, email, phone, status, source, income)\n        - Referenced by ordertab\n        - Has followups in leadfollowup\n        \n        product (product_id, client_id, name, price, sale_commission, status, type)\n        - Used in order_product_mapping and leadproduct\n        \n        order_product_mapping (id, order_id, product_id, product_quantity, rate)\n        - Links orders to products\n        ").data

/-- The `enhance_query` f-string from its start up to (and excluding) the
word `attempt` of the line `This is attempt {attempt} of {self.MAX_RETRIES}.` -/
def promptHead : List Char :=
  ("\n        Given this database schema:\n        ").data ++ schemaText ++
  ("\n        \n        Important notes:\n        1. Sample data is from Jan-Mar 2024, use this date range for \"current\" queries\n        2. Use proper JOIN conditions and handle NULL values\n        3. For revenue calculations, use product_quantity * rate\n        4. Always check deleted = false or IS NULL where applicable\n        5. Use CAST for decimal calculations\n        \n        This is ").data

/-- The `enhance_query` f-string prefix up to the `{attempt}` interpolation. -/
def promptPart1 : List Char := promptHead ++ ("attempt ").data

/-- The `enhance_query` f-string between `{self.MAX_RETRIES}` and
`{natural_query}`. -/
def promptPart2 : List Char :=
  (".\n        If previous attempts failed, generate a different variation of the query.\n        \n        Convert this business question to PostgreSQL (return ONLY the SQL): ").data

/-- The `enhance_query` f-string tail after `{natural_query}`. -/
def promptPart3 : List Char :=
  ("\n        \n        Important schema and PostgreSQL notes:\n        - User table is named \x27bizuser\x27 (not \x27users\x27)\n        - User fields are first_name, last_name (not name)\n        - Lead status values are: NEW, IN_PROGRESS, QUALIFIED, CONVERTED\n        - Order status values are: NEW, IN_PROGRESS, COMPLETED, DELIVERED\n        - For decimal calculations, use CAST(value AS numeric(10,2))\n        - For aggregations with decimals, use CAST(SUM/AVG as numeric(10,2))\n        ").data

/-- The `enhance_query` f-string with both interpolations filled in. -/
def promptBody (q : List Char) (attempt : Nat) : List Char :=
  promptPart1 ++ natStr attempt ++ (" of ").data ++ natStr MAX_RETRIES ++
    promptPart2 ++ q ++ promptPart3

/-- Executable substring test, modelling the Python `in` operator on
strings: the pattern matches at some position of the subject. -/
def containsSub (pat : List Char) : List Char → Bool
  | [] => pat.isEmpty
  | c :: rest => pat.isPrefixOf (c :: rest) || containsSub pat rest

/-- The condition `"this month" in natural_query.lower()`. -/
def thisMonthCond (q : List Char) : Bool :=
  containsSub (("this month").data) (pyLower q)

/-- The note appended when the question mentions `this month`. -/
def januaryNote : List Char :=
  ("\nNote: Use January 2024 as \x27this month\x27 for the sample data.").data

/-- The full prompt `enhance_query` sends to the generation service for
question `q` on attempt `attempt` (lines 71-97 of the source). -/
def buildPrompt (q : List Char) (attempt : Nat) : List Char :=
  promptBody q attempt ++ (if thisMonthCond q then januaryNote else [])

/-- C7: for every question and every attempt number in `[1, MAX_RETRIES]`,
the prompt contains the literal marker `attempt N of 3`. -/
theorem prompt_contains_attempt_marker (q : List Char) (n : Nat)
    (h1 : 1 ≤ n) (h2 : n ≤ MAX_RETRIES) :
    (("attempt ").data ++ natStr n ++ (" of 3").data) <:+: buildPrompt q n := by
  refine ⟨promptHead,
    promptPart2 ++ q ++ promptPart3 ++ (if thisMonthCond q then januaryNote else []), ?_⟩
  have key : ∀ r : List Char,
      (" of ").data ++ (natStr MAX_RETRIES ++ r) = (" of 3").data ++ r := by
    intro r
    rw [← List.append_assoc]
    have h3 : (" of ").data ++ natStr MAX_RETRIES = (" of 3").data := by decide
    rw [h3]
  simp only [buildPrompt, promptBody, promptPart1, List.append_assoc, key]

/-- Witness for `prompt_contains_attempt_marker` at `n = 2`. -/
theorem prompt_contains_attempt_marker_witness :
    1 ≤ 2 ∧ 2 ≤ MAX_RETRIES ∧
      ((("attempt ").data ++ natStr 2 ++ (" of 3").data) <:+: buildPrompt (("x").data) 2) :=
  ⟨by decide, by decide,
    prompt_contains_attempt_marker (("x").data) 2 (by decide) (by decide)⟩

/-- C8: when the lower-cased question contains `this month`, the prompt
additionally carries the note pinning `this month` to January 2024; when it
does not, nothing is appended and the prompt is exactly the base f-string. -/
theorem prompt_this_month_note (q : List Char) (n : Nat) :
    (thisMonthCond q = true → januaryNote <:+: buildPrompt q n)
    ∧ (thisMonthCond q = false → buildPrompt q n = promptBody q n) := by
  constructor
  · intro h
    refine ⟨promptBody q n, [], ?_⟩
    rw [buildPrompt, h]
    simp
  · intro h
    rw [buildPrompt, h]
    simp

/-- Witness for `prompt_this_month_note`: the spec's example question gets
the note, a question without the phrase does not. -/
theorem prompt_this_month_note_witness :
    (januaryNote <:+: buildPrompt (("How many orders this month?").data) 1)
    ∧ buildPrompt (("How many orders?").data) 1
        = promptBody (("How many orders?").data) 1 :=
  ⟨(prompt_this_month_note (("How many orders this month?").data) 1).1 (by decide),
   (prompt_this_month_note (("How many orders?").data) 1).2 (by decide)⟩

/-- C4 counterexample: `clean_sql` is NOT idempotent.  On six backticks the
trailing-fence substitution deletes the last three backticks (their suffix
is empty, hence all whitespace), leaving three backticks, which a second
run of `clean_sql` deletes entirely: `clean_sql "\x60\x60\x60\x60\x60\x60" =
"\x60\x60\x60"` but `clean_sql "\x60\x60\x60" = ""`. -/
theorem clean_sql_not_idempotent :
    clean_sql (clean_sql [tick, tick, tick, tick, tick, tick])
      ≠ clean_sql [tick, tick, tick, tick, tick, tick] := by decide

/-- C4 (amended): on every input that holds no fence marker `\x60\x60\x60`,
`clean_sql` is exactly `str.strip()`, and hence idempotent there; on
arbitrary input idempotence fails (see `clean_sql_not_idempotent`). -/
theorem clean_sql_idempotent_of_fence_free (x : List Char)
    (h : ¬ ticks3 <:+: x) :
    clean_sql (clean_sql x) = clean_sql x ∧ clean_sql x = pyStrip x := by
  have h1 : clean_sql x = pyStrip x := by
    rw [clean_sql, subFenceSql_no_fence x h, subFenceEnd_no_fence x h]
  have h2 : ¬ ticks3 <:+: pyStrip x := fun hin => h (hin.trans (pyStrip_piece x))
  have h3 : clean_sql (pyStrip x) = pyStrip (pyStrip x) := by
    rw [clean_sql, subFenceSql_no_fence _ h2, subFenceEnd_no_fence _ h2]
  exact ⟨by rw [h1, h3, pyStrip_idem], h1⟩

/-- Witness for `clean_sql_idempotent_of_fence_free` at a concrete input. -/
theorem clean_sql_idempotent_of_fence_free_witness :
    ¬ ticks3 <:+: ("  SELECT 1  ").data ∧
      clean_sql (clean_sql ("  SELECT 1  ").data) = clean_sql ("  SELECT 1  ").data :=
  ⟨by decide, (clean_sql_idempotent_of_fence_free (("  SELECT 1  ").data) (by decide)).1⟩

/-- C9: the sanitizer deletes `\x60\x60\x60sql` fences anywhere in the input
(not only leading ones), deletes a single trailing `\x60\x60\x60` fence with
optional trailing whitespace — an earlier fence followed by more text, even
another fence, is kept — and the final result is whitespace-trimmed on both
sides. -/
theorem clean_sql_fence_removal :
    (∀ a b : List Char, (∀ c ∈ a, c ≠ tick) →
      subFenceSql (a ++ (fenceSql ++ b)) = a ++ subFenceSql (b.dropWhile isWS))
    ∧ (∀ l w : List Char, (∀ c ∈ l, c ≠ tick) → allWS w = true →
      subFenceEnd (l ++ (ticks3 ++ w)) = l)
    ∧ (∀ l v w : List Char, (∀ c ∈ l, c ≠ tick) → allWS v = true → v ≠ [] →
      allWS w = true →
      subFenceEnd (l ++ (ticks3 ++ (v ++ (ticks3 ++ w)))) = l ++ (ticks3 ++ v))
    ∧ (∀ x : List Char, pyStrip (clean_sql x) = clean_sql x) := by
  refine ⟨?_, ?_, ?_, ?_⟩
  · intro a b ha
    rw [subFenceSql_append_no_tick a (fenceSql ++ b) ha, subFenceSql_fence_head]
  · exact subFenceEnd_trailing
  · exact subFenceEnd_two_fences
  · intro x
    rw [clean_sql]
    exact pyStrip_idem _

/-- Witness for `clean_sql_fence_removal` at concrete inputs. -/
theorem clean_sql_fence_removal_witness :
    subFenceSql (("SELECT ").data ++ (fenceSql ++ (" 1").data))
        = ("SELECT ").data ++ subFenceSql ((" 1").data.dropWhile isWS)
    ∧ subFenceEnd (("SELECT 1 ").data ++ (ticks3 ++ ("  ").data)) = ("SELECT 1 ").data
    ∧ subFenceEnd (("x").data ++ (ticks3 ++ ((" ").data ++ (ticks3 ++ ("\n").data))))
        = ("x").data ++ (ticks3 ++ (" ").data)
    ∧ pyStrip (clean_sql ((" a ").data)) = clean_sql ((" a ").data) :=
  ⟨clean_sql_fence_removal.1 (("SELECT ").data) ((" 1").data) (by decide),
   clean_sql_fence_removal.2.1 (("SELECT 1 ").data) (("  ").data) (by decide) (by decide),
   clean_sql_fence_removal.2.2.1 (("x").data) ((" ").data) (("\n").data)
     (by decide) (by decide) (by decide) (by decide),
   clean_sql_fence_removal.2.2.2 ((" a ").data)⟩

/-! Embedding of the orchestration core (`attempt_query_execution`,
`process_query`).  The values returned to the caller are Python dicts,
modelled as association lists in insertion order; the two external
collaborators (generation service, database driver) are an oracle indexed
by attempt number; every run is instrumented with a call trace. -/

/-- A Python value as stored in the dictionaries `process_query` returns. -/
inductive PyVal (Row : Type) where
  | str : List Char → PyVal Row
  | rows : List Row → PyVal Row
  | int : Nat → PyVal Row

/-- A Python dict with string keys, in insertion order. -/
abbrev PyDict (Row : Type) := List (List Char × PyVal Row)

variable {Row : Type}

/-- The keys of a dict, in insertion order. -/
def dkeys (d : PyDict Row) : List (List Char) := d.map Prod.fst

/-- Lookup of a key in a dict. -/
def dget (d : PyDict Row) (k : List Char) : Option (PyVal Row) :=
  match d with
  | [] => none
  | (k', v) :: rest => if k' = k then some v else dget rest k

/-- The success dictionary literal returned by `attempt_query_execution`
(lines 166-173 of the source), keys in source order. -/
def successDict (q sql : List Char) (results : List Row) (insights : List Char)
    (attempt : Nat) (ts : List Char) : PyDict Row :=
  [(("query").data, PyVal.str q), (("sql").data, PyVal.str sql),
   (("results").data, PyVal.rows results), (("insights").data, PyVal.str insights),
   (("attempt").data, PyVal.int attempt), (("timestamp").data, PyVal.str ts)]

/-- The failure dictionary literal returned by `process_query` (lines
206-210 and 215-219 of the source), keys in source order. -/
def failureDict (errMsg q ts : List Char) : PyDict Row :=
  [(("error").data, PyVal.str errMsg), (("query").data, PyVal.str q),
   (("timestamp").data, PyVal.str ts)]

/-- Configuration read from the environment in `__init__`: each `os.getenv`
may return `None`; `DB_PORT` has the default `"5432"`. -/
structure Config where
  host : Option (List Char)
  database : Option (List Char)
  user : Option (List Char)
  password : Option (List Char)
  port : List Char
  openaiApiKey : Option (List Char)

/-- Python truthiness of an optional string: `None` and `""` are falsy. -/
def truthy : Option (List Char) → Bool
  | none => false
  | some s => !s.isEmpty

/-- Oracle for the external collaborators of one run, indexed by attempt
number: the generation service's reply to the SQL prompt (which receives
the prompt built by `enhance_query`), the database driver's connect and
execute/fetch outcomes, and the generation service's reply to the insight
request (which receives the result rows and the question).  An
`Except.error` models the corresponding Python call raising, carrying the
exception's message; `now` stands for `datetime.now().isoformat()`. -/
structure Env (Row : Type) where
  genSqlResp : Nat → List Char → Except (List Char) (List Char)
  dbConnect : Nat → Except (List Char) Unit
  dbExec : Nat → Except (List Char) (List Row)
  insightResp : Nat → List Row → List Char → Except (List Char) (List Char)
  now : List Char

/-- Instrumentation of one `process_query` run: which attempts invoked SQL
generation, which invoked the database, which invoked insight synthesis
(with the rows handed over), and the `time.sleep` delays performed. -/
structure Trace (Row : Type) where
  sqlGenCalls : List Nat
  dbCalls : List Nat
  insightCalls : List (Nat × List Row)
  sleeps : List Nat

/-- The trace before any call was made. -/
def Trace.empty : Trace Row := ⟨[], [], [], []⟩

/-- Resource and transaction events of `execute_query`.  `connClose` is the
event a `conn.close()` call would emit; the source never calls it, so no
definition below ever produces it. -/
inductive DbEvent where
  | connOpen | connClose | commit | rollback | curOpen | curClose | exec
deriving DecidableEq

/-- The `with conn.cursor() as cur:` block: psycopg2's cursor `__exit__`
closes the cursor, on normal and exceptional exit alike. -/
def withCursor {α : Type} (body : Except (List Char) α × List DbEvent) :
    Except (List Char) α × List DbEvent :=
  (body.1, DbEvent.curOpen :: body.2 ++ [DbEvent.curClose])

/-- The `with psycopg2.connect(...) as conn:` block: psycopg2's connection
`__exit__` only ends the current transaction — `commit` on normal exit,
`rollback` when the body raised — and does NOT close the connection.  The
source calls `conn.close()` nowhere, so no `connClose` event is emitted on
any path. -/
def withConnection {α : Type} (body : Except (List Char) α × List DbEvent) :
    Except (List Char) α × List DbEvent :=
  (body.1, DbEvent.connOpen :: body.2 ++
    [match body.1 with
     | .ok _ => DbEvent.commit
     | .error _ => DbEvent.rollback])

/-- Embedding of `CRMQueryProcessor.execute_query` (lines 112-125): inside
`try`, `with psycopg2.connect(...)` then `with conn.cursor()`, execute and
fetch (the row-to-record zip over the cursor description is part of the
oracle's row outcome); the `except` wraps any exception into
`Exception(f"Database error: {e}")` and re-raises.  The second component
is the event trace of the two `with` blocks, per psycopg2 semantics: the
cursor block closes the cursor, the connection block commits or rolls back
but leaves the connection open; no connection event is emitted when
`psycopg2.connect` itself raises, since nothing was acquired. -/
def execute_query (env : Env Row) (attempt : Nat) :
    Except (List Char) (List Row) × List DbEvent :=
  let attempted : Except (List Char) (List Row) × List DbEvent :=
    match env.dbConnect attempt with
    | .error e => (.error e, [])
    | .ok _ =>
      withConnection
        (withCursor
          (match env.dbExec attempt with
           | .error e => (.error e, [DbEvent.exec])
           | .ok results => (.ok results, [DbEvent.exec])))
  match attempted.1 with
  | .error e => (.error (("Database error: ").data ++ e), attempted.2)
  | .ok results => (.ok results, attempted.2)

/-- Embedding of `CRMQueryProcessor.enhance_query` (lines 70-110): build
the prompt, call the generation service, `strip()` the reply and
`clean_sql` it; a generation-service exception propagates. -/
def enhance_query (env : Env Row) (q : List Char) (attempt : Nat) :
    Except (List Char) (List Char) :=
  match env.genSqlResp attempt (buildPrompt q attempt) with
  | .error e => .error e
  | .ok content => .ok (clean_sql (pyStrip content))

/-- The `except` clause of `attempt_query_execution` (lines 174-180): below
`MAX_RETRIES`, `time.sleep(RETRY_DELAY)` and return `None`; on the final
attempt re-raise the exception. -/
def handleAttemptFailure (attempt : Nat) (e : List Char) (tr : Trace Row) :
    Except (List Char) (Option (PyDict Row)) × Trace Row :=
  if attempt < MAX_RETRIES then
    (.ok none, { tr with sleeps := tr.sleeps ++ [RETRY_DELAY] })
  else (.error e, tr)

/-- Embedding of `CRMQueryProcessor.attempt_query_execution` (lines
155-180): generate SQL, execute it, treat an empty result set as the
failure `Exception("Query returned no results")`, otherwise synthesize
insights and return the success dict; any exception in the body goes
through the `except` clause. -/
def attempt_query_execution (env : Env Row) (q : List Char) (attempt : Nat)
    (tr : Trace Row) : Except (List Char) (Option (PyDict Row)) × Trace Row :=
  let tr1 : Trace Row := { tr with sqlGenCalls := tr.sqlGenCalls ++ [attempt] }
  match enhance_query env q attempt with
  | .error e => handleAttemptFailure attempt e tr1
  | .ok sql =>
    let tr2 : Trace Row := { tr1 with dbCalls := tr1.dbCalls ++ [attempt] }
    match (execute_query env attempt).1 with
    | .error e => handleAttemptFailure attempt e tr2
    | .ok results =>
      if results.isEmpty then
        handleAttemptFailure attempt (("Query returned no results").data) tr2
      else
        let tr3 : Trace Row :=
          { tr2 with insightCalls := tr2.insightCalls ++ [(attempt, results)] }
        match env.insightResp attempt results q with
        | .error e => handleAttemptFailure attempt e tr3
        | .ok insights =>
          (.ok (some (successDict q sql results insights attempt env.now)), tr3)

/-- Python `str(last_error)`: `str(None)` is the text `None`, otherwise the
exception's message. -/
def strOfLastError : Option (List Char) → List Char
  | none => ("None").data
  | some e => e

/-- The message `f"All {self.MAX_RETRIES} attempts failed. Last error:
{str(last_error)}"` of line 204. -/
def exhaustedMsg (lastError : Option (List Char)) : List Char :=
  ("All ").data ++ natStr MAX_RETRIES ++ (" attempts failed. Last error: ").data
    ++ strOfLastError lastError

/-- The `for attempt in range(1, MAX_RETRIES + 1)` loop of `process_query`
(lines 193-210): a returned dict ends the loop if truthy (`if result:`), a
returned `None` continues, a raised exception is recorded in `last_error`
and the loop continues; an exhausted loop returns the failure dict with
the `All ... attempts failed` message. -/
def process_attempts (env : Env Row) (q : List Char) :
    List Nat → Option (List Char) → Trace Row → PyDict Row × Trace Row
  | [], lastError, tr => (failureDict (exhaustedMsg lastError) q env.now, tr)
  | attempt :: rest, lastError, tr =>
    match attempt_query_execution env q attempt tr with
    | (.ok (some result), tr') =>
      if result.isEmpty then process_attempts env q rest lastError tr'
      else (result, tr')
    | (.ok none, tr') => process_attempts env q rest lastError tr'
    | (.error e, tr') => process_attempts env q rest (some e) tr'

/-- Embedding of `CRMQueryProcessor.process_query` (lines 182-219): check
the database credentials (`if not all([...])`) and the generation-service
credential before any attempt — each failing check raises, and the outer
`except` turns the exception into the failure dict — then run the retry
loop. -/
def process_query (env : Env Row) (cfg : Config) (q : List Char) :
    PyDict Row × Trace Row :=
  if !(truthy cfg.host && truthy cfg.database && truthy cfg.user
      && truthy cfg.password) then
    (failureDict (("Database configuration is incomplete").data) q env.now, Trace.empty)
  else if !(truthy cfg.openaiApiKey) then
    (failureDict (("OpenAI API key is not set").data) q env.now, Trace.empty)
  else
    process_attempts env q (List.range' 1 MAX_RETRIES) none Trace.empty

/-! Concrete configurations and oracles used by the witnesses. -/

/-- A configuration with every credential present. -/
def cfgFull : Config :=
  ⟨some (("h").data), some (("d").data), some (("u").data), some (("p").data),
   ("5432").data, some (("k").data)⟩

/-- A configuration whose database password is missing. -/
def cfgNoPassword : Config :=
  ⟨some (("h").data), some (("d").data), some (("u").data), none,
   ("5432").data, some (("k").data)⟩

/-- A configuration whose generation-service credential is missing. -/
def cfgNoKey : Config :=
  ⟨some (("h").data), some (("d").data), some (("u").data), some (("p").data),
   ("5432").data, none⟩

/-- An oracle on which every SQL execution returns zero rows. -/
def envZeroRows : Env Nat :=
  ⟨fun _ _ => .ok (("SELECT 1").data), fun _ => .ok (), fun _ => .ok [],
   fun _ _ _ => .ok (("i").data), ("T").data⟩

/-- An oracle on which attempt 1 hits a database error and attempt 2
returns five rows. -/
def envRetryThenRows : Env Nat :=
  ⟨fun _ _ => .ok (("SELECT 1").data), fun _ => .ok (),
   fun n => if n = 1 then .error (("boom").data) else .ok [10, 20, 30, 40, 50],
   fun _ _ _ => .ok (("insight").data), ("T").data⟩

/-- An oracle on which the first attempt succeeds with one row. -/
def envFirstTry : Env Nat :=
  ⟨fun _ _ => .ok (("SELECT 1").data), fun _ => .ok (), fun _ => .ok [0],
   fun _ _ _ => .ok (("insight").data), ("T").data⟩

/-- An oracle whose connection opens but whose execution raises. -/
def envExecRaises : Env Nat :=
  ⟨fun _ _ => .ok (("SELECT 1").data), fun _ => .ok (),
   fun _ => .error (("boom").data), fun _ _ _ => .ok (("i").data), ("T").data⟩

/-- C5 (code bug): the claimed guarantee — connection and cursor both
released on every exit path of `execute_query` — does not hold of the
program.  The cursor `with` block does close the cursor on every path,
but the connection `with` block's exit only ends the transaction
(psycopg2 commits on normal exit, rolls back when the body raised) and
`conn.close()` is never called: no run of `execute_query` ever emits a
connection-close event.  Concretely, on a call whose connection succeeds
and whose execution raises, the events are `connOpen`, `curOpen`, `exec`,
`curClose`, `rollback` — the opened connection is left open. -/
theorem execute_query_leaks_connection :
    (∀ (env : Env Row) (attempt : Nat),
      ((execute_query env attempt).2).count DbEvent.connClose = 0
      ∧ ((execute_query env attempt).2).count DbEvent.curOpen
          = ((execute_query env attempt).2).count DbEvent.curClose)
    ∧ (execute_query envExecRaises 1).2
        = [DbEvent.connOpen, DbEvent.curOpen, DbEvent.exec,
           DbEvent.curClose, DbEvent.rollback] := by
  constructor
  · intro env attempt
    cases hc : env.dbConnect attempt with
    | error e =>
      have hev : (execute_query env attempt).2 = [] := by
        simp [execute_query, hc]
      rw [hev]
      exact ⟨rfl, rfl⟩
    | ok u =>
      cases hx : env.dbExec attempt with
      | error e =>
        have hev : (execute_query env attempt).2
            = [DbEvent.connOpen, DbEvent.curOpen, DbEvent.exec,
               DbEvent.curClose, DbEvent.rollback] := by
          simp [execute_query, hc, hx, withConnection, withCursor]
        rw [hev]
        exact ⟨by decide, by decide⟩
      | ok results =>
        have hev : (execute_query env attempt).2
            = [DbEvent.connOpen, DbEvent.curOpen, DbEvent.exec,
               DbEvent.curClose, DbEvent.commit] := by
          simp [execute_query, hc, hx, withConnection, withCursor]
        rw [hev]
        exact ⟨by decide, by decide⟩
  · rfl

/-- C1: when every attempt's execution returns zero rows, `process_query`
ends in the failure dict whose message carries the last attempt's error
`Query returned no results`, after exactly `MAX_RETRIES` generation and
database calls, with the fixed backoff delay slept exactly
`MAX_RETRIES - 1` times and insight synthesis never invoked. -/
theorem all_attempts_zero_rows_exhausts (env : Env Row) (cfg : Config)
    (q : List Char)
    (hcfg : (truthy cfg.host && truthy cfg.database && truthy cfg.user
      && truthy cfg.password) = true)
    (hkey : truthy cfg.openaiApiKey = true)
    (hgen : ∀ n p, ∃ t, env.genSqlResp n p = .ok t)
    (hconn : ∀ n, env.dbConnect n = .ok ())
    (hdb : ∀ n, env.dbExec n = .ok ([] : List Row)) :
    (process_query env cfg q).1
        = failureDict
            (("All 3 attempts failed. Last error: Query returned no results").data)
            q env.now
    ∧ (process_query env cfg q).2.sqlGenCalls = [1, 2, 3]
    ∧ (process_query env cfg q).2.dbCalls = [1, 2, 3]
    ∧ (process_query env cfg q).2.sleeps = [RETRY_DELAY, RETRY_DELAY]
    ∧ (process_query env cfg q).2.insightCalls = [] := by
  obtain ⟨t1, h1⟩ := hgen 1 (buildPrompt q 1)
  obtain ⟨t2, h2⟩ := hgen 2 (buildPrompt q 2)
  obtain ⟨t3, h3⟩ := hgen 3 (buildPrompt q 3)
  have hrange : List.range' 1 MAX_RETRIES = [1, 2, 3] := rfl
  have hmsg : exhaustedMsg (some (("Query returned no results").data))
      = (("All 3 attempts failed. Last error: Query returned no results").data) := by
    decide
  simp [process_query, hcfg, hkey, hrange, process_attempts,
    attempt_query_execution, enhance_query, h1, h2, h3, execute_query, hconn,
    hdb, withConnection, withCursor, handleAttemptFailure, MAX_RETRIES, Trace.empty, hmsg]

/-- Witness for `all_attempts_zero_rows_exhausts`. -/
theorem all_attempts_zero_rows_exhausts_witness :
    (process_query envZeroRows cfgFull (("q?").data)).2.sleeps
      = [RETRY_DELAY, RETRY_DELAY] :=
  (all_attempts_zero_rows_exhausts envZeroRows cfgFull (("q?").data)
    (by decide) (by decide) (fun _ _ => ⟨(("SELECT 1").data), rfl⟩)
    (fun _ => rfl) (fun _ => rfl)).2.2.2.1

/-- C2: when attempt 1 raises a database error and attempt 2 returns five
rows with insight synthesis succeeding, `process_query` returns the
success dict tagged with attempt 2, and insight synthesis is invoked
exactly once — on attempt 2, never on the failed attempt. -/
theorem second_attempt_success (env : Env Row) (cfg : Config) (q : List Char)
    (t1 t2 e1 ins : List Char) (rows : List Row)
    (hcfg : (truthy cfg.host && truthy cfg.database && truthy cfg.user
      && truthy cfg.password) = true)
    (hkey : truthy cfg.openaiApiKey = true)
    (hg1 : env.genSqlResp 1 (buildPrompt q 1) = .ok t1)
    (hg2 : env.genSqlResp 2 (buildPrompt q 2) = .ok t2)
    (hc1 : env.dbConnect 1 = .ok ())
    (he1 : env.dbExec 1 = .error e1)
    (hc2 : env.dbConnect 2 = .ok ())
    (he2 : env.dbExec 2 = .ok rows)
    (hlen : rows.length = 5)
    (hins : env.insightResp 2 rows q = .ok ins) :
    (process_query env cfg q).1
        = successDict q (clean_sql (pyStrip t2)) rows ins 2 env.now
    ∧ (process_query env cfg q).2.insightCalls = [(2, rows)] := by
  have hne : rows.isEmpty = false := by
    cases rows with
    | nil => simp at hlen
    | cons a l => rfl
  have hrange : List.range' 1 MAX_RETRIES = [1, 2, 3] := rfl
  simp [process_query, hcfg, hkey, hrange, process_attempts,
    attempt_query_execution, enhance_query, hg1, hg2, execute_query, hc1, he1,
    hc2, he2, hne, hins, withConnection, withCursor, handleAttemptFailure, MAX_RETRIES,
    Trace.empty, successDict]

/-- Witness for `second_attempt_success`. -/
theorem second_attempt_success_witness :
    (process_query envRetryThenRows cfgFull (("q?").data)).2.insightCalls
      = [(2, [10, 20, 30, 40, 50])] :=
  (second_attempt_success envRetryThenRows cfgFull (("q?").data)
    (("SELECT 1").data) (("SELECT 1").data) (("boom").data) (("insight").data)
    [10, 20, 30, 40, 50]
    (by decide) (by decide) rfl rfl rfl rfl rfl rfl rfl rfl).2

/-- C3: a missing database credential makes `process_query` return the
failure dict with the configuration message at once, and a missing
generation-service credential likewise; in both cases the trace is empty —
no generation call, no database call, no sleep. -/
theorem missing_config_fails_fast (env : Env Row) (cfg : Config) (q : List Char) :
    ((truthy cfg.host && truthy cfg.database && truthy cfg.user
        && truthy cfg.password) = false →
      (process_query env cfg q).1
          = failureDict (("Database configuration is incomplete").data) q env.now
        ∧ (process_query env cfg q).2 = Trace.empty)
    ∧ ((truthy cfg.host && truthy cfg.database && truthy cfg.user
        && truthy cfg.password) = true →
      truthy cfg.openaiApiKey = false →
      (process_query env cfg q).1
          = failureDict (("OpenAI API key is not set").data) q env.now
        ∧ (process_query env cfg q).2 = Trace.empty) := by
  constructor
  · intro h
    constructor <;> simp [process_query, h]
  · intro h hk
    constructor <;> simp [process_query, h, hk]

/-! Helper lemmas for the result-shape and insight-provenance claims. -/

/-- The retry handler never produces a success result. -/
theorem handleAttemptFailure_fst_ne (a : Nat) (e : List Char) (tr : Trace Row)
    (r : PyDict Row) : (handleAttemptFailure a e tr).1 ≠ .ok (some r) := by
  rw [handleAttemptFailure]
  split <;> simp

/-- Any success result of `attempt_query_execution` is the success dict for
the given question and attempt number. -/
theorem attempt_success_shape (env : Env Row) (q : List Char) (a : Nat)
    (tr : Trace Row) (r : PyDict Row) (tr' : Trace Row)
    (h : attempt_query_execution env q a tr = (.ok (some r), tr')) :
    ∃ sql results insights, r = successDict q sql results insights a env.now := by
  rw [attempt_query_execution] at h
  cases henh : enhance_query env q a with
  | error e =>
    simp only [henh] at h
    exact absurd (congrArg Prod.fst h) (handleAttemptFailure_fst_ne a e _ r)
  | ok sql =>
    simp only [henh] at h
    cases hex : (execute_query env a).1 with
    | error e =>
      simp only [hex] at h
      exact absurd (congrArg Prod.fst h) (handleAttemptFailure_fst_ne a e _ r)
    | ok results =>
      simp only [hex] at h
      cases hemp : results.isEmpty with
      | true =>
        simp only [hemp, if_true] at h
        exact absurd (congrArg Prod.fst h) (handleAttemptFailure_fst_ne a _ _ r)
      | false =>
        simp only [hemp, Bool.false_eq_true, if_false] at h
        cases hins : env.insightResp a results q with
        | error e =>
          simp only [hins] at h
          exact absurd (congrArg Prod.fst h) (handleAttemptFailure_fst_ne a e _ r)
        | ok insights =>
          simp only [hins, Prod.mk.injEq, Except.ok.injEq, Option.some.injEq] at h
          exact ⟨sql, results, insights, h.1.symm⟩

/-- A success dict is never a failure dict (they have six and three keys
respectively). -/
theorem successDict_ne_failureDict (q sql : List Char) (results : List Row)
    (insights : List Char) (a : Nat) (ts e q' ts' : List Char) :
    successDict q sql results insights a ts ≠ failureDict e q' ts' := by
  intro h
  have := congrArg List.length h
  simp [successDict, failureDict] at this

/-- The loop of `process_query` always ends in a success dict for the given
question or a failure dict for the given question. -/
theorem process_attempts_shape (env : Env Row) (q : List Char) :
    ∀ (attempts : List Nat) (lastError : Option (List Char)) (tr : Trace Row),
      (∃ a sql results insights,
        (process_attempts env q attempts lastError tr).1
          = successDict q sql results insights a env.now)
      ∨ (∃ e, (process_attempts env q attempts lastError tr).1
          = failureDict e q env.now) := by
  intro attempts
  induction attempts with
  | nil =>
    intro lastError tr
    right
    exact ⟨exhaustedMsg lastError, rfl⟩
  | cons a rest ih =>
    intro lastError tr
    cases hres : attempt_query_execution env q a tr with
    | mk res tr' =>
      cases res with
      | error e =>
        simp only [process_attempts, hres]
        exact ih (some e) tr'
      | ok o =>
        cases o with
        | none =>
          simp only [process_attempts, hres]
          exact ih lastError tr'
        | some r =>
          cases hemp : r.isEmpty with
          | true =>
            simp only [process_attempts, hres, hemp, if_true]
            exact ih lastError tr'
          | false =>
            simp only [process_attempts, hres, hemp, Bool.false_eq_true, if_false]
            obtain ⟨sql, results, insights, hr⟩ :=
              attempt_success_shape env q a tr r tr' hres
            exact Or.inl ⟨a, sql, results, insights, hr⟩

/-- C6: every `process_query` return value is exactly one of the two dict
shapes: the success dict (which has no `error` key), or the failure dict
carrying the original question, a message under `error`, and a timestamp
(and no `sql` / `results` / `insights` keys) — never both, never neither. -/
theorem process_query_result_shape (env : Env Row) (cfg : Config) (q : List Char) :
    ((∃ sql results insights attempt,
        (process_query env cfg q).1
          = successDict q sql results insights attempt env.now)
      ∧ ¬ (∃ e, (process_query env cfg q).1 = failureDict e q env.now)
      ∧ dget (process_query env cfg q).1 (("error").data) = none)
    ∨ ((∃ e, (process_query env cfg q).1 = failureDict e q env.now)
      ∧ ¬ (∃ sql results insights attempt,
        (process_query env cfg q).1
          = successDict q sql results insights attempt env.now)
      ∧ dget (process_query env cfg q).1 (("sql").data) = none
      ∧ dget (process_query env cfg q).1 (("results").data) = none
      ∧ dget (process_query env cfg q).1 (("insights").data) = none
      ∧ (∃ e, dget (process_query env cfg q).1 (("error").data)
          = some (PyVal.str e))
      ∧ dget (process_query env cfg q).1 (("query").data) = some (PyVal.str q)
      ∧ dget (process_query env cfg q).1 (("timestamp").data)
          = some (PyVal.str env.now)) := by
  have main :
      (∃ a sql results insights,
        (process_query env cfg q).1 = successDict q sql results insights a env.now)
      ∨ (∃ e, (process_query env cfg q).1 = failureDict e q env.now) := by
    cases hcred : (truthy cfg.host && truthy cfg.database && truthy cfg.user
        && truthy cfg.password) with
    | false =>
      right
      refine ⟨("Database configuration is incomplete").data, ?_⟩
      simp [process_query, hcred]
    | true =>
      cases hk : truthy cfg.openaiApiKey with
      | false =>
        right
        refine ⟨("OpenAI API key is not set").data, ?_⟩
        simp [process_query, hcred, hk]
      | true =>
        have hrun : process_query env cfg q
            = process_attempts env q (List.range' 1 MAX_RETRIES) none Trace.empty := by
          simp [process_query, hcred, hk]
        rw [hrun]
        exact process_attempts_shape env q _ none Trace.empty
  rcases main with ⟨a, sql, results, insights, hS⟩ | ⟨e, hF⟩
  · left
    refine ⟨⟨sql, results, insights, a, hS⟩, ?_, ?_⟩
    · rintro ⟨e, hF⟩
      exact successDict_ne_failureDict q sql results insights a env.now e q env.now
        (hS.symm.trans hF)
    · rw [hS]
      rfl
  · right
    refine ⟨⟨e, hF⟩, ?_, ?_, ?_, ?_, ?_, ?_, ?_⟩
    · rintro ⟨sql, results, insights, a, hS⟩
      exact successDict_ne_failureDict q sql results insights a env.now e q env.now
        (hS.symm.trans hF)
    · rw [hF]; rfl
    · rw [hF]; rfl
    · rw [hF]; rfl
    · exact ⟨e, by rw [hF]; rfl⟩
    · rw [hF]; rfl
    · rw [hF]; rfl

/-- The retry handler leaves the insight-call trace unchanged. -/
theorem handleAttemptFailure_insightCalls (a : Nat) (e : List Char)
    (tr : Trace Row) :
    ((handleAttemptFailure a e tr).2).insightCalls = tr.insightCalls := by
  rw [handleAttemptFailure]
  split <;> rfl

/-- Any insight call recorded by `attempt_query_execution` was either
already in the trace, or carries exactly the (nonempty) rows that this
attempt's execution returned. -/
theorem attempt_insight_provenance (env : Env Row) (q : List Char) (a : Nat)
    (tr : Trace Row) (pr : Nat × List Row)
    (h : pr ∈ ((attempt_query_execution env q a tr).2).insightCalls) :
    pr ∈ tr.insightCalls
    ∨ ((execute_query env pr.1).1 = .ok pr.2 ∧ pr.2 ≠ []) := by
  cases henh : enhance_query env q a with
  | error e =>
    left
    have hcalls : ((attempt_query_execution env q a tr).2).insightCalls
        = tr.insightCalls := by
      simp [attempt_query_execution, henh, handleAttemptFailure_insightCalls]
    rwa [hcalls] at h
  | ok sql =>
    cases hex : (execute_query env a).1 with
    | error e =>
      left
      have hcalls : ((attempt_query_execution env q a tr).2).insightCalls
          = tr.insightCalls := by
        simp [attempt_query_execution, henh, hex, handleAttemptFailure_insightCalls]
      rwa [hcalls] at h
    | ok results =>
      cases hemp : results.isEmpty with
      | true =>
        left
        have hcalls : ((attempt_query_execution env q a tr).2).insightCalls
            = tr.insightCalls := by
          simp [attempt_query_execution, henh, hex, hemp,
            handleAttemptFailure_insightCalls]
        rwa [hcalls] at h
      | false =>
        have hcalls : ((attempt_query_execution env q a tr).2).insightCalls
            = tr.insightCalls ++ [(a, results)] := by
          cases hins : env.insightResp a results q with
          | error e =>
            simp [attempt_query_execution, henh, hex, hemp, hins,
              handleAttemptFailure_insightCalls]
          | ok insights =>
            simp [attempt_query_execution, henh, hex, hemp, hins]
        rw [hcalls] at h
        rcases List.mem_append.mp h with hin | hnew
        · exact Or.inl hin
        · right
          have hpr : pr = (a, results) := by simpa using hnew
          subst hpr
          refine ⟨hex, ?_⟩
          intro hnil
          have hnil' : results = [] := hnil
          rw [hnil'] at hemp
          simp at hemp

/-- Through the whole retry loop, every recorded insight call carries
exactly the nonempty row set its attempt's execution returned. -/
theorem process_attempts_insight (env : Env Row) (q : List Char) :
    ∀ (attempts : List Nat) (lastError : Option (List Char)) (tr : Trace Row),
      (∀ pr ∈ tr.insightCalls,
        (execute_query env pr.1).1 = .ok pr.2 ∧ pr.2 ≠ []) →
      ∀ pr ∈ ((process_attempts env q attempts lastError tr).2).insightCalls,
        (execute_query env pr.1).1 = .ok pr.2 ∧ pr.2 ≠ [] := by
  intro attempts
  induction attempts with
  | nil =>
    intro lastError tr hinv pr hpr
    exact hinv pr hpr
  | cons a rest ih =>
    intro lastError tr hinv pr hpr
    cases hres : attempt_query_execution env q a tr with
    | mk res tr' =>
      have htr' : ∀ pr' ∈ tr'.insightCalls,
          (execute_query env pr'.1).1 = .ok pr'.2 ∧ pr'.2 ≠ [] := by
        intro pr' hpr'
        rcases attempt_insight_provenance env q a tr pr'
            (by rw [hres]; exact hpr') with hin | hgood
        · exact hinv pr' hin
        · exact hgood
      cases res with
      | error e =>
        simp only [process_attempts, hres] at hpr
        exact ih (some e) tr' htr' pr hpr
      | ok o =>
        cases o with
        | none =>
          simp only [process_attempts, hres] at hpr
          exact ih lastError tr' htr' pr hpr
        | some r =>
          cases hemp : r.isEmpty with
          | true =>
            simp only [process_attempts, hres, hemp, if_true] at hpr
            exact ih lastError tr' htr' pr hpr
          | false =>
            simp only [process_attempts, hres, hemp, Bool.false_eq_true,
              if_false] at hpr
            exact htr' pr hpr

/-- C10: in any run of `process_query`, insight synthesis is only ever
invoked with the row set an attempt's execution returned, and that row set
is never empty. -/
theorem insights_only_on_nonempty_results (env : Env Row) (cfg : Config)
    (q : List Char) (pr : Nat × List Row)
    (hmem : pr ∈ ((process_query env cfg q).2).insightCalls) :
    (execute_query env pr.1).1 = .ok pr.2 ∧ pr.2 ≠ [] := by
  cases hcred : (truthy cfg.host && truthy cfg.database && truthy cfg.user
      && truthy cfg.password) with
  | false =>
    have htr : (process_query env cfg q).2 = Trace.empty := by
      simp [process_query, hcred]
    rw [htr] at hmem
    simp [Trace.empty] at hmem
  | true =>
    cases hk : truthy cfg.openaiApiKey with
    | false =>
      have htr : (process_query env cfg q).2 = Trace.empty := by
        simp [process_query, hcred, hk]
      rw [htr] at hmem
      simp [Trace.empty] at hmem
    | true =>
      have hrun : process_query env cfg q
          = process_attempts env q (List.range' 1 MAX_RETRIES) none Trace.empty := by
        simp [process_query, hcred, hk]
      rw [hrun] at hmem
      exact process_attempts_insight env q _ none Trace.empty
        (by intro pr' hpr'; simp [Trace.empty] at hpr') pr hmem

/-- Witness for `insights_only_on_nonempty_results` on a run that records
one insight call. -/
theorem insights_only_on_nonempty_results_witness :
    (execute_query envFirstTry 1).1 = .ok [0] ∧ ([0] : List Nat) ≠ [] :=
  insights_only_on_nonempty_results envFirstTry cfgFull (("q").data) (1, [0])
    (by decide)

/-- Witness for `missing_config_fails_fast`: a missing password and a
missing generation-service key. -/
theorem missing_config_fails_fast_witness :
    ((process_query envZeroRows cfgNoPassword (("q?").data)).1
        = failureDict (("Database configuration is incomplete").data)
            (("q?").data) envZeroRows.now
      ∧ (process_query envZeroRows cfgNoPassword (("q?").data)).2 = Trace.empty)
    ∧ ((process_query envZeroRows cfgNoKey (("q?").data)).1
        = failureDict (("OpenAI API key is not set").data)
            (("q?").data) envZeroRows.now
      ∧ (process_query envZeroRows cfgNoKey (("q?").data)).2 = Trace.empty) :=
  ⟨(missing_config_fails_fast envZeroRows cfgNoPassword (("q?").data)).1 (by decide),
   (missing_config_fails_fast envZeroRows cfgNoKey (("q?").data)).2
     (by decide) (by decide)⟩

end CRM
